/-
Verification of the Merton structural credit model core
(naive_model/model.py, naive_model/risk_measures.py, naive_model/calibration.py).

Conventions of the shallow embedding:
* Python floats are modelled as real numbers (ℝ); overflow and rounding are
  idealised away, which is the standard reading of the numeric formulas.
* `scipy.optimize.fsolve` is an external black box: its outcome is passed in
  explicitly as a function of the residual function and the initial guess,
  returning an `Option SolveResult` (`none` models the call raising an
  exception, `some res` models it returning the point `(res.V, res.sigma_V)`
  with convergence flag `res.ier`).  The calibration logic around the solver
  call is translated literally.
* `default_probability` has no input guard, so its behaviour on malformed
  inputs is fixed by IEEE-754 special values (`np.log` of a negative number
  is NaN, of zero is -inf; `norm.cdf` of ±inf is 1/0).  For that function we
  use a small IEEE-style value domain `FV` with the special values made
  explicit.  Signed zeros are collapsed to the single real 0.
* The standard normal CDF `norm.cdf x` is modelled by `Phi x`, the Gaussian
  integral over `Iic x` normalised by `√(2π)`.
-/
import Mathlib

open MeasureTheory Set

noncomputable section

/-- Standard normal cumulative distribution function. -/
def Phi (x : ℝ) : ℝ :=
  (∫ t in Iic x, Real.exp (-(1 / 2) * t ^ 2)) / Real.sqrt (2 * Real.pi)


/-! ## Option pricing primitives (naive_model/model.py) -/

/-- `black_scholes_call(S, K, T, r, sigma)` from model.py, translated clause by
clause: the two edge-case guards, then
`d1 = (log(S/K) + (r + sigma^2/2)*T) / (sigma*sqrt(T))`, `d2 = d1 - sigma*sqrt(T)`,
`max(0, S*Phi(d1) - K*exp(-r*T)*Phi(d2))`. -/
def black_scholes_call (S K T r sigma : ℝ) : ℝ :=
  if S ≤ 0 ∨ sigma ≤ 0 ∨ T ≤ 0 then 0
  else if K ≤ 0 then S
  else
    let d1 := (Real.log (S / K) + (r + sigma ^ 2 / 2) * T) / (sigma * Real.sqrt T)
    let d2 := d1 - sigma * Real.sqrt T
    max 0 (S * Phi d1 - K * Real.exp (-r * T) * Phi d2)

/-- `black_scholes_delta(S, K, T, r, sigma)` from model.py: the edge-case guard
returning 0.0, then `Phi(d1)`. -/
def black_scholes_delta (S K T r sigma : ℝ) : ℝ :=
  if S ≤ 0 ∨ sigma ≤ 0 ∨ T ≤ 0 ∨ K ≤ 0 then 0
  else Phi ((Real.log (S / K) + (r + sigma ^ 2 / 2) * T) / (sigma * Real.sqrt T))

/-! ## IEEE-style float values for the unguarded risk measure

`default_probability` in risk_measures.py validates nothing, so on malformed
inputs the IEEE special values of `np.log` / division / `norm.cdf` decide the
result.  `FV` makes those special values explicit: a finite real, the two
infinities, or NaN.  Signed zeros are collapsed to the single real 0 (the
inputs of interest only produce the positive zero). -/

inductive FV where
  | fin (x : ℝ) : FV
  | pinf : FV
  | ninf : FV
  | nan : FV
  deriving DecidableEq

/-- IEEE addition on `FV` values: NaN propagates, `+∞ + -∞` is NaN. -/
def FV.add : FV → FV → FV
  | FV.fin a, FV.fin b => FV.fin (a + b)
  | FV.fin _, FV.pinf => FV.pinf
  | FV.fin _, FV.ninf => FV.ninf
  | FV.pinf, FV.fin _ => FV.pinf
  | FV.ninf, FV.fin _ => FV.ninf
  | FV.pinf, FV.pinf => FV.pinf
  | FV.ninf, FV.ninf => FV.ninf
  | FV.pinf, FV.ninf => FV.nan
  | FV.ninf, FV.pinf => FV.nan
  | FV.nan, _ => FV.nan
  | _, FV.nan => FV.nan

/-- IEEE multiplication on `FV` values: NaN propagates, `±∞ * 0` is NaN. -/
def FV.mul : FV → FV → FV
  | FV.fin a, FV.fin b => FV.fin (a * b)
  | FV.fin a, FV.pinf =>
      if a = 0 then FV.nan else if 0 < a then FV.pinf else FV.ninf
  | FV.fin a, FV.ninf =>
      if a = 0 then FV.nan else if 0 < a then FV.ninf else FV.pinf
  | FV.pinf, FV.fin b =>
      if b = 0 then FV.nan else if 0 < b then FV.pinf else FV.ninf
  | FV.ninf, FV.fin b =>
      if b = 0 then FV.nan else if 0 < b then FV.ninf else FV.pinf
  | FV.pinf, FV.pinf => FV.pinf
  | FV.ninf, FV.ninf => FV.pinf
  | FV.pinf, FV.ninf => FV.ninf
  | FV.ninf, FV.pinf => FV.ninf
  | FV.nan, _ => FV.nan
  | _, FV.nan => FV.nan

/-- IEEE division on `FV` values: NaN propagates, `0/0` and `∞/∞` are NaN,
a nonzero finite number divided by (positive) zero is a signed infinity. -/
def FV.div : FV → FV → FV
  | FV.fin a, FV.fin b =>
      if b = 0 then (if a = 0 then FV.nan else if 0 < a then FV.pinf else FV.ninf)
      else FV.fin (a / b)
  | FV.fin _, FV.pinf => FV.fin 0
  | FV.fin _, FV.ninf => FV.fin 0
  | FV.pinf, FV.fin b => if 0 ≤ b then FV.pinf else FV.ninf
  | FV.ninf, FV.fin b => if 0 ≤ b then FV.ninf else FV.pinf
  | FV.pinf, FV.pinf => FV.nan
  | FV.pinf, FV.ninf => FV.nan
  | FV.ninf, FV.pinf => FV.nan
  | FV.ninf, FV.ninf => FV.nan
  | FV.nan, _ => FV.nan
  | _, FV.nan => FV.nan

/-- IEEE negation on `FV` values. -/
def FV.neg : FV → FV
  | FV.fin a => FV.fin (-a)
  | FV.pinf => FV.ninf
  | FV.ninf => FV.pinf
  | FV.nan => FV.nan

/-- `np.log` on `FV` values: `log 0 = -∞`, `log` of a negative number is NaN,
`log ∞ = ∞`. -/
def FV.log : FV → FV
  | FV.fin a => if 0 < a then FV.fin (Real.log a) else if a = 0 then FV.ninf else FV.nan
  | FV.pinf => FV.pinf
  | FV.ninf => FV.nan
  | FV.nan => FV.nan

/-- `np.sqrt` on `FV` values: NaN on negative arguments. -/
def FV.sqrt : FV → FV
  | FV.fin a => if 0 ≤ a then FV.fin (Real.sqrt a) else FV.nan
  | FV.pinf => FV.pinf
  | FV.ninf => FV.nan
  | FV.nan => FV.nan

/-- `norm.cdf` on `FV` values: `Phi` on finite arguments, 1 at `+∞`, 0 at
`-∞`, NaN at NaN. -/
def FV.phi : FV → FV
  | FV.fin a => FV.fin (Phi a)
  | FV.pinf => FV.fin 1
  | FV.ninf => FV.fin 0
  | FV.nan => FV.nan

/-! ## Risk measures (naive_model/risk_measures.py) -/

/-- `distance_to_default(V, D, T, r, sigma_V)` from risk_measures.py.
`none` models the `np.nan` sentinel; the guard, the expected value
`V*exp(r*T)`, the standard deviation `V*exp(r*T)*sqrt(exp(sigma_V^2*T)-1)`
and the `std_V_T == 0` check are translated literally. -/
def distance_to_default (V D T r sigma_V : ℝ) : Option ℝ :=
  if V ≤ 0 ∨ sigma_V ≤ 0 ∨ T ≤ 0 ∨ D ≤ 0 then none
  else
    let expected_V_T := V * Real.exp (r * T)
    let std_V_T := V * Real.exp (r * T) * Real.sqrt (Real.exp (sigma_V ^ 2 * T) - 1)
    if std_V_T = 0 then none
    else some ((expected_V_T - D) / std_V_T)

/-- `default_probability(V, D, T, r, sigma_V)` from risk_measures.py.  The
function has no guard, so it is translated into the IEEE value domain `FV`:
`d2 = (np.log(V/D) + (r - sigma_V^2/2)*T) / (sigma_V*np.sqrt(T))` followed by
`norm.cdf(-d2)`.  The subexpressions `(r - sigma_V^2/2)*T` and `sigma_V`
involve only finite real arithmetic and stay finite. -/
def default_probability (V D T r sigma_V : ℝ) : FV :=
  let d2 :=
    FV.div
      (FV.add (FV.log (FV.div (FV.fin V) (FV.fin D)))
        (FV.fin ((r - sigma_V ^ 2 / 2) * T)))
      (FV.mul (FV.fin sigma_V) (FV.sqrt (FV.fin T)))
  FV.phi (FV.neg d2)

/-! ## Calibration (naive_model/calibration.py)

`scipy.optimize.fsolve` is external, so the outcome of the
`fsolve(equations, [V0, sigma_V0], ...)` call is passed in as a function of
the residual function and the initial guess: `none` models the call raising
an exception (caught by the
`try`/`except` and converted to `(None, None)`), and `some res` models a
normal return with solution point `(res.V, res.sigma_V)` and convergence flag
`res.ier` (`ier = 1` means converged).  Everything around the call — the
input guard, the default initial guesses, and the post-solve acceptance gate
— is translated literally.  The Python optional arguments `V0`/`sigma_V0`
are elided (every caller in the repository uses the defaults). -/

/-- Outcome of a normally-returning `fsolve` call: the candidate point and
the integer convergence flag `ier`. -/
structure SolveResult where
  V : ℝ
  sigma_V : ℝ
  ier : ℤ

/-- The residual function `equations` defined inside
`calibrate_asset_parameters`: the large-penalty branch for infeasible
candidates, then `eq1 = black_scholes_call(V,D,T,r,sigma_V) - E` and
`eq2 = delta*sigma_V*V - sigma_E*E`. -/
def calibration_equations (E sigma_E D T r : ℝ) (V sigma_V : ℝ) : ℝ × ℝ :=
  if V ≤ 0 ∨ sigma_V ≤ 0 then (1e10, 1e10)
  else
    let E_calc := black_scholes_call V D T r sigma_V
    let delta := black_scholes_delta V D T r sigma_V
    (E_calc - E, delta * sigma_V * V - sigma_E * E)

/-- `calibrate_asset_parameters(E, sigma_E, D, T, r)` from calibration.py:
the input guard `E <= 0 or sigma_E <= 0 or D < 0 or T <= 0`, the default
initial guesses `V0 = E + D` and
`sigma_V0 = clip(sigma_E*E/(E+D) if E+D > 0 else sigma_E, 0.01, 0.99)`,
the solver call, and the acceptance gate (`ier != 1`, `V <= 0 or
sigma_V <= 0`, `V < E*1.01`, `sigma_V > 2.0 or sigma_V < 0.0001`). -/
def calibrate_asset_parameters (E sigma_E D T r : ℝ)
    (fsolve : (ℝ → ℝ → ℝ × ℝ) → ℝ → ℝ → Option SolveResult) :
    Option ℝ × Option ℝ :=
  if E ≤ 0 ∨ sigma_E ≤ 0 ∨ D < 0 ∨ T ≤ 0 then (none, none)
  else
    let V0 := E + D
    let sigma_V0 :=
      min (max (if 0 < E + D then sigma_E * E / (E + D) else sigma_E) 0.01) 0.99
    match fsolve (calibration_equations E sigma_E D T r) V0 sigma_V0 with
    | none => (none, none)
    | some result =>
      if result.ier ≠ 1 then (none, none)
      else if result.V ≤ 0 ∨ result.sigma_V ≤ 0 then (none, none)
      else if result.V < E * 1.01 then (none, none)
      else if result.sigma_V > 2.0 ∨ result.sigma_V < 0.0001 then (none, none)
      else (some result.V, some result.sigma_V)

/-- The dictionary returned by `calibrate_with_validation`. -/
structure ValidationResult where
  V : Option ℝ
  sigma_V : Option ℝ
  success : Bool
  message : String

/-- `calibrate_with_validation(E, sigma_E, D, T, r)` from calibration.py: the
inner calibration, the `V is None or sigma_V is None` failure branch, the
self-consistency recomputation of `E_check` and `sigma_E_check`, and the 1%
relative-error acceptance test.  The interpolated numeric values in the
`Poor match` f-string are elided; only the static text matters here. -/
def calibrate_with_validation (E sigma_E D T r : ℝ)
    (fsolve : (ℝ → ℝ → ℝ × ℝ) → ℝ → ℝ → Option SolveResult) : ValidationResult :=
  match calibrate_asset_parameters E sigma_E D T r fsolve with
  | (some V, some sigma_V) =>
      let E_check := black_scholes_call V D T r sigma_V
      let delta := black_scholes_delta V D T r sigma_V
      let sigma_E_check := if 0 < E_check then delta * sigma_V * V / E_check else 0
      let E_error := |E_check - E| / E
      let sigma_E_error := |sigma_E_check - sigma_E| / sigma_E
      if 0.01 < E_error ∨ 0.01 < sigma_E_error then
        ⟨none, none, false, "Poor match"⟩
      else
        ⟨some V, some sigma_V, true, "Calibration successful"⟩
  | _ => ⟨none, none, false, "Calibration failed to converge"⟩


/-! ## Properties of the normal CDF -/

lemma gauss_integrable : Integrable (fun t : ℝ => Real.exp (-(1 / 2) * t ^ 2)) :=
  integrable_exp_neg_mul_sq (by norm_num)

lemma gauss_total :
    (∫ t : ℝ, Real.exp (-(1 / 2) * t ^ 2)) = Real.sqrt (2 * Real.pi) := by
  rw [integral_gaussian]
  congr 1
  ring

lemma sqrt_two_pi_pos : 0 < Real.sqrt (2 * Real.pi) :=
  Real.sqrt_pos.2 (by positivity)

lemma gauss_support :
    Function.support (fun t : ℝ => Real.exp (-(1 / 2) * t ^ 2)) = univ :=
  Set.eq_univ_of_forall fun _ => (Real.exp_pos _).ne'

lemma gauss_setIntegral_pos {s : Set ℝ} (_hs : MeasurableSet s) (hvol : 0 < volume s) :
    0 < ∫ t in s, Real.exp (-(1 / 2) * t ^ 2) := by
  rw [setIntegral_pos_iff_support_of_nonneg_ae
      (Filter.Eventually.of_forall fun t => (Real.exp_pos _).le)
      gauss_integrable.integrableOn]
  rwa [gauss_support, Set.univ_inter]

lemma Phi_pos (x : ℝ) : 0 < Phi x := by
  refine div_pos ?_ sqrt_two_pi_pos
  refine gauss_setIntegral_pos measurableSet_Iic ?_
  rw [Real.volume_Iic]
  exact ENNReal.zero_lt_top

lemma Phi_nonneg (x : ℝ) : 0 ≤ Phi x := (Phi_pos x).le

lemma Phi_lt_one (x : ℝ) : Phi x < 1 := by
  have hsplit :
      (∫ t in Iic x, Real.exp (-(1 / 2) * t ^ 2))
        + ∫ t in Ioi x, Real.exp (-(1 / 2) * t ^ 2)
        = ∫ t : ℝ, Real.exp (-(1 / 2) * t ^ 2) :=
    intervalIntegral.integral_Iic_add_Ioi gauss_integrable.integrableOn
      gauss_integrable.integrableOn
  have hpos : 0 < ∫ t in Ioi x, Real.exp (-(1 / 2) * t ^ 2) := by
    refine gauss_setIntegral_pos measurableSet_Ioi ?_
    rw [Real.volume_Ioi]
    exact ENNReal.zero_lt_top
  have hlt : (∫ t in Iic x, Real.exp (-(1 / 2) * t ^ 2)) < Real.sqrt (2 * Real.pi) := by
    rw [← gauss_total, ← hsplit]
    linarith
  exact (div_lt_one sqrt_two_pi_pos).2 hlt

lemma Phi_le_one (x : ℝ) : Phi x ≤ 1 := (Phi_lt_one x).le

lemma Phi_monotone : Monotone Phi := by
  intro x y hxy
  have hle :
      (∫ t in Iic x, Real.exp (-(1 / 2) * t ^ 2))
        ≤ ∫ t in Iic y, Real.exp (-(1 / 2) * t ^ 2) :=
    setIntegral_mono_set gauss_integrable.integrableOn
      (Filter.Eventually.of_forall fun t => (Real.exp_pos _).le)
      (HasSubset.Subset.eventuallyLE (Iic_subset_Iic.2 hxy))
  exact div_le_div_of_nonneg_right hle sqrt_two_pi_pos.le

/-! ## Reduction lemmas for the IEEE value domain -/

lemma FV.div_fin {a b : ℝ} (hb : b ≠ 0) :
    FV.div (FV.fin a) (FV.fin b) = FV.fin (a / b) := by
  simp [FV.div, hb]

lemma FV.log_fin_pos {a : ℝ} (ha : 0 < a) :
    FV.log (FV.fin a) = FV.fin (Real.log a) := by
  simp [FV.log, ha]

lemma FV.log_fin_neg {a : ℝ} (ha : a < 0) :
    FV.log (FV.fin a) = FV.nan := by
  simp [FV.log, not_lt.2 ha.le, ha.ne]

lemma FV.sqrt_fin {a : ℝ} (ha : 0 ≤ a) :
    FV.sqrt (FV.fin a) = FV.fin (Real.sqrt a) := by
  simp [FV.sqrt, ha]

lemma FV.add_fin (a b : ℝ) : FV.add (FV.fin a) (FV.fin b) = FV.fin (a + b) := rfl

lemma FV.mul_fin (a b : ℝ) : FV.mul (FV.fin a) (FV.fin b) = FV.fin (a * b) := rfl

lemma FV.add_nan_left (v : FV) : FV.add FV.nan v = FV.nan := by
  cases v <;> rfl

lemma FV.div_nan_left (v : FV) : FV.div FV.nan v = FV.nan := by
  cases v <;> rfl

/-! ## Claim theorems: option pricing primitives -/

lemma black_scholes_delta_mem (S K T r sigma : ℝ) :
    0 ≤ black_scholes_delta S K T r sigma ∧ black_scholes_delta S K T r sigma ≤ 1 := by
  unfold black_scholes_delta
  split_ifs
  · exact ⟨le_refl 0, zero_le_one⟩
  · exact ⟨Phi_nonneg _, Phi_le_one _⟩

/-- C6: `black_scholes_call` returns 0 when `S ≤ 0`, `sigma ≤ 0` or `T ≤ 0`;
it returns `S` when `K ≤ 0` (with `S, sigma, T` positive); and its result is
always non-negative. -/
theorem black_scholes_call_edge_cases (S K T r sigma : ℝ) :
    ((S ≤ 0 ∨ sigma ≤ 0 ∨ T ≤ 0) → black_scholes_call S K T r sigma = 0)
    ∧ (0 < S → 0 < sigma → 0 < T → K ≤ 0 → black_scholes_call S K T r sigma = S)
    ∧ 0 ≤ black_scholes_call S K T r sigma := by
  refine ⟨fun h => ?_, fun hS hsig hT hK => ?_, ?_⟩
  · unfold black_scholes_call
    rw [if_pos h]
  · unfold black_scholes_call
    rw [if_neg (by push_neg; exact ⟨hS, hsig, hT⟩), if_pos hK]
  · unfold black_scholes_call
    split_ifs with h1 h2
    · exact le_refl 0
    · push_neg at h1
      exact h1.1.le
    · exact le_max_left 0 _

/-- Witness for C6: a call with zero strike is worth the underlying. -/
theorem black_scholes_call_edge_cases_witness :
    black_scholes_call 2 0 1 0 1 = 2 :=
  (black_scholes_call_edge_cases 2 0 1 0 1).2.1 (by norm_num) (by norm_num)
    (by norm_num) (by norm_num)

/-- C7: for positive `S`, `K`, `T`, `sigma` and any rate `r`, the call value
is non-negative and strictly below the underlying `S`. -/
theorem black_scholes_call_lt_underlying (S K T r sigma : ℝ)
    (hS : 0 < S) (hK : 0 < K) (hT : 0 < T) (hsig : 0 < sigma) :
    0 ≤ black_scholes_call S K T r sigma ∧ black_scholes_call S K T r sigma < S := by
  unfold black_scholes_call
  rw [if_neg (by push_neg; exact ⟨hS, hsig, hT⟩), if_neg (not_le.2 hK)]
  dsimp only
  refine ⟨le_max_left 0 _, max_lt hS ?_⟩
  have h1 : S * Phi ((Real.log (S / K) + (r + sigma ^ 2 / 2) * T) / (sigma * Real.sqrt T))
      < S * 1 :=
    mul_lt_mul_of_pos_left (Phi_lt_one _) hS
  have h2 : 0 ≤ K * Real.exp (-r * T) *
      Phi ((Real.log (S / K) + (r + sigma ^ 2 / 2) * T) / (sigma * Real.sqrt T)
        - sigma * Real.sqrt T) :=
    mul_nonneg (mul_nonneg hK.le (Real.exp_pos _).le) (Phi_nonneg _)
  nlinarith

/-- Witness for C7 at `(S, K, T, r, sigma) = (2, 1, 1, 0, 1)`. -/
theorem black_scholes_call_lt_underlying_witness :
    0 ≤ black_scholes_call 2 1 1 0 1 ∧ black_scholes_call 2 1 1 0 1 < 2 :=
  black_scholes_call_lt_underlying 2 1 1 0 1 (by norm_num) (by norm_num)
    (by norm_num) (by norm_num)

/-- C8: `black_scholes_delta` always lies in `[0, 1]`, and for fixed positive
`K`, `T`, `sigma` it is non-decreasing in the underlying `S`. -/
theorem black_scholes_delta_bounded_monotone (S K T r sigma : ℝ) :
    (0 ≤ black_scholes_delta S K T r sigma ∧ black_scholes_delta S K T r sigma ≤ 1)
    ∧ (0 < K → 0 < T → 0 < sigma → ∀ S2, S ≤ S2 →
        black_scholes_delta S K T r sigma ≤ black_scholes_delta S2 K T r sigma) := by
  refine ⟨black_scholes_delta_mem S K T r sigma, fun hK hT hsig S2 hS12 => ?_⟩
  by_cases hS : S ≤ 0
  · have h0 : black_scholes_delta S K T r sigma = 0 := by
      unfold black_scholes_delta
      rw [if_pos (Or.inl hS)]
    rw [h0]
    exact (black_scholes_delta_mem S2 K T r sigma).1
  · push_neg at hS
    have hS2 : 0 < S2 := hS.trans_le hS12
    unfold black_scholes_delta
    rw [if_neg (by push_neg; exact ⟨hS, hsig, hT, hK⟩),
        if_neg (by push_neg; exact ⟨hS2, hsig, hT, hK⟩)]
    apply Phi_monotone
    have hd : Real.log (S / K) ≤ Real.log (S2 / K) :=
      Real.log_le_log (div_pos hS hK) (div_le_div_of_nonneg_right hS12 hK.le)
    have hden : 0 ≤ sigma * Real.sqrt T :=
      mul_nonneg hsig.le (Real.sqrt_nonneg T)
    exact div_le_div_of_nonneg_right (by linarith) hden

/-- Witness for C8: monotonicity applied at `S = 1 ≤ 2 = S2`. -/
theorem black_scholes_delta_bounded_monotone_witness :
    black_scholes_delta 1 1 1 0 1 ≤ black_scholes_delta 2 1 1 0 1 :=
  (black_scholes_delta_bounded_monotone 1 1 1 0 1).2 (by norm_num) (by norm_num)
    (by norm_num) 2 (by norm_num)

/-! ## Claim theorems: risk measures -/

lemma std_V_T_pos {V T sigma_V : ℝ} (r : ℝ) (hV : 0 < V) (hT : 0 < T)
    (hsig : 0 < sigma_V) :
    0 < V * Real.exp (r * T) * Real.sqrt (Real.exp (sigma_V ^ 2 * T) - 1) := by
  have h1 : 1 < Real.exp (sigma_V ^ 2 * T) := by
    rw [← Real.exp_zero]
    exact Real.exp_lt_exp.2 (by positivity)
  exact mul_pos (mul_pos hV (Real.exp_pos _)) (Real.sqrt_pos.2 (by linarith))

/-- C5: `distance_to_default` returns the NaN sentinel exactly on the listed
degenerate inputs, and on valid inputs returns the closed-form
`(V·e^(rT) − D) / (V·e^(rT)·√(e^(sigma_V²T) − 1))`. -/
theorem distance_to_default_spec (V D T r sigma_V : ℝ) :
    (distance_to_default V D T r sigma_V = none ↔
      V ≤ 0 ∨ sigma_V ≤ 0 ∨ T ≤ 0 ∨ D ≤ 0 ∨
        V * Real.exp (r * T) * Real.sqrt (Real.exp (sigma_V ^ 2 * T) - 1) = 0)
    ∧ (0 < V → 0 < D → 0 < T → 0 < sigma_V →
      distance_to_default V D T r sigma_V =
        some ((V * Real.exp (r * T) - D) /
          (V * Real.exp (r * T) * Real.sqrt (Real.exp (sigma_V ^ 2 * T) - 1)))) := by
  constructor
  · unfold distance_to_default
    dsimp only
    split_ifs with h1 h2
    · exact iff_of_true rfl (by tauto)
    · exact iff_of_true rfl (by tauto)
    · refine iff_of_false (by simp) ?_
      push_neg at h1
      simp only [not_or]
      exact ⟨not_le.2 h1.1, not_le.2 h1.2.1, not_le.2 h1.2.2.1, not_le.2 h1.2.2.2, h2⟩
  · intro hV hD hT hsig
    unfold distance_to_default
    dsimp only
    rw [if_neg (by push_neg; exact ⟨hV, hsig, hT, hD⟩),
        if_neg (std_V_T_pos r hV hT hsig).ne']

/-- Witness for C5 at `(V, D, T, r, sigma_V) = (2, 1, 1, 0, 1)`. -/
theorem distance_to_default_spec_witness :
    distance_to_default 2 1 1 0 1 =
      some ((2 * Real.exp (0 * 1) - 1) /
        (2 * Real.exp (0 * 1) * Real.sqrt (Real.exp (1 ^ 2 * 1) - 1))) :=
  (distance_to_default_spec 2 1 1 0 1).2 (by norm_num) (by norm_num) (by norm_num)
    (by norm_num)

/-- C9: on valid inputs `default_probability` returns the finite value
`Phi(−d2)` with `d2 = (ln(V/D) + (r − sigma_V²/2)·T) / (sigma_V·√T)`, and
that value lies in `[0, 1]`. -/
theorem default_probability_spec (V D T r sigma_V : ℝ)
    (hV : 0 < V) (hD : 0 < D) (hT : 0 < T) (hsig : 0 < sigma_V) :
    default_probability V D T r sigma_V =
      FV.fin (Phi (-((Real.log (V / D) + (r - sigma_V ^ 2 / 2) * T) /
        (sigma_V * Real.sqrt T))))
    ∧ 0 ≤ Phi (-((Real.log (V / D) + (r - sigma_V ^ 2 / 2) * T) /
        (sigma_V * Real.sqrt T)))
    ∧ Phi (-((Real.log (V / D) + (r - sigma_V ^ 2 / 2) * T) /
        (sigma_V * Real.sqrt T))) ≤ 1 := by
  refine ⟨?_, Phi_nonneg _, Phi_le_one _⟩
  unfold default_probability
  dsimp only
  rw [FV.div_fin hD.ne', FV.log_fin_pos (div_pos hV hD), FV.add_fin,
      FV.sqrt_fin hT.le, FV.mul_fin,
      FV.div_fin (mul_pos hsig (Real.sqrt_pos.2 hT)).ne']
  rfl

/-- Witness for C9 at `(V, D, T, r, sigma_V) = (2, 1, 1, 0, 1)`. -/
theorem default_probability_spec_witness :
    default_probability 2 1 1 0 1 =
      FV.fin (Phi (-((Real.log (2 / 1) + (0 - 1 ^ 2 / 2) * 1) / (1 * Real.sqrt 1))))
    ∧ 0 ≤ Phi (-((Real.log (2 / 1) + (0 - 1 ^ 2 / 2) * 1) / (1 * Real.sqrt 1)))
    ∧ Phi (-((Real.log (2 / 1) + (0 - 1 ^ 2 / 2) * 1) / (1 * Real.sqrt 1))) ≤ 1 :=
  default_probability_spec 2 1 1 0 1 (by norm_num) (by norm_num) (by norm_num)
    (by norm_num)

/-- Counterexample to C4 as stated: at `V = 0` (a malformed input with
`D, T, sigma_V > 0`), `np.log(0/D) = -∞` makes `d2 = -∞`, so
`default_probability` returns the defined probability `Phi(+∞) = 1.0`
rather than a NaN/undefined result. -/
theorem default_probability_zero_asset_defined :
    default_probability 0 1 1 0 1 = FV.fin 1 ∧ FV.fin (1 : ℝ) ≠ FV.nan := by
  constructor
  · unfold default_probability
    dsimp only
    rw [FV.div_fin one_ne_zero]
    norm_num [FV.log, FV.sqrt, FV.mul, FV.add, FV.div, FV.neg, FV.phi]
  · simp

/-- C4 (amended): `default_probability` performs no input re-validation; for
every input with `V < 0` and `D, T, sigma_V > 0`, the NaN produced by
`np.log` of a negative number propagates to the result. -/
theorem default_probability_propagates_nan (V D T r sigma_V : ℝ)
    (hV : V < 0) (hD : 0 < D) (hT : 0 < T) (_hsig : 0 < sigma_V) :
    default_probability V D T r sigma_V = FV.nan := by
  unfold default_probability
  dsimp only
  rw [FV.div_fin hD.ne', FV.log_fin_neg (div_neg_of_neg_of_pos hV hD),
      FV.add_nan_left, FV.sqrt_fin hT.le, FV.mul_fin, FV.div_nan_left]
  rfl

/-- Witness for the amended C4 at `(V, D, T, r, sigma_V) = (-1, 1, 1, 0, 1)`. -/
theorem default_probability_propagates_nan_witness :
    default_probability (-1) 1 1 0 1 = FV.nan :=
  default_probability_propagates_nan (-1) 1 1 0 1 (by norm_num) (by norm_num)
    (by norm_num) (by norm_num)

/-! ## Claim theorems: calibration -/

/-- C1 (amended): on admissible inputs, a non-absent calibration output comes
from a solver run reporting convergence and satisfies `V > 0`, `sigma_V > 0`,
`V ≥ E·1.01` and `0.0001 ≤ sigma_V ≤ 2.0`; any candidate violating one of
these conditions is rejected, yielding `(none, none)`. -/
theorem calibrate_acceptance_gate (E sigma_E D T r : ℝ)
    (hE : 0 < E) (hsigE : 0 < sigma_E) (hD : 0 ≤ D) (hT : 0 < T) :
    (∀ (fsolve : (ℝ → ℝ → ℝ × ℝ) → ℝ → ℝ → Option SolveResult) (V sig : ℝ),
      calibrate_asset_parameters E sigma_E D T r fsolve = (some V, some sig) →
        (∃ res : SolveResult,
          fsolve (calibration_equations E sigma_E D T r) (E + D)
              (min (max (if 0 < E + D then sigma_E * E / (E + D) else sigma_E) 0.01)
                0.99)
            = some res ∧ res.ier = 1 ∧ res.V = V ∧ res.sigma_V = sig)
        ∧ 0 < V ∧ 0 < sig ∧ E * 1.01 ≤ V ∧ 0.0001 ≤ sig ∧ sig ≤ 2.0)
    ∧ (∀ res : SolveResult,
        ¬(res.ier = 1 ∧ 0 < res.V ∧ 0 < res.sigma_V ∧ E * 1.01 ≤ res.V ∧
          0.0001 ≤ res.sigma_V ∧ res.sigma_V ≤ 2.0) →
        calibrate_asset_parameters E sigma_E D T r (fun _ _ _ => some res)
          = (none, none)) := by
  have hguard : ¬(E ≤ 0 ∨ sigma_E ≤ 0 ∨ D < 0 ∨ T ≤ 0) := by
    push_neg
    exact ⟨hE, hsigE, hD, hT⟩
  constructor
  · intro fsolve V sig hcal
    unfold calibrate_asset_parameters at hcal
    rw [if_neg hguard] at hcal
    dsimp only at hcal
    rcases hfs : fsolve (calibration_equations E sigma_E D T r) (E + D)
        (min (max (if 0 < E + D then sigma_E * E / (E + D) else sigma_E) 0.01) 0.99)
      with _ | res
    · rw [hfs] at hcal
      exact absurd hcal (by simp)
    · rw [hfs] at hcal
      dsimp only at hcal
      split_ifs at hcal with h1 h2 h3 h4
      · exact absurd hcal (by simp)
      · exact absurd hcal (by simp)
      · exact absurd hcal (by simp)
      · exact absurd hcal (by simp)
      · push_neg at h2 h4
        simp only [Prod.mk.injEq, Option.some.injEq] at hcal
        obtain ⟨hV', hsig'⟩ := hcal
        subst hV'
        subst hsig'
        exact ⟨⟨res, rfl, not_not.1 h1, rfl, rfl⟩, h2.1, h2.2, not_lt.1 h3,
          h4.2, h4.1⟩
  · intro res hbad
    unfold calibrate_asset_parameters
    rw [if_neg hguard]
    dsimp only
    split_ifs with h1 h2 h3 h4
    · rfl
    · rfl
    · rfl
    · rfl
    · push_neg at h2 h4
      exact absurd ⟨not_not.1 h1, h2.1, h2.2, not_lt.1 h3, h4.2, h4.1⟩ hbad

/-- Witness for C1: a converged candidate with `V = 50 < E·1.01` is
rejected. -/
theorem calibrate_acceptance_gate_witness :
    calibrate_asset_parameters 100 (3 / 10) 50 1 (5 / 100)
        (fun _ _ _ => some ⟨50, 1 / 2, 1⟩) = (none, none) :=
  (calibrate_acceptance_gate 100 (3 / 10) 50 1 (5 / 100) (by norm_num) (by norm_num)
      (by norm_num) (by norm_num)).2 ⟨50, 1 / 2, 1⟩
    (fun h => absurd h.2.2.2.1 (by norm_num))

/-- Counterexample to C1 as stated: the gate only rejects `V < E·1.01`, so
the boundary candidate `V = 101 = 100·1.01` is accepted even though it does
not satisfy the claimed strict inequality `V > E·1.01`. -/
theorem calibrate_accepts_boundary_margin :
    calibrate_asset_parameters 100 (3 / 10) 50 1 (5 / 100)
        (fun _ _ _ => some ⟨101, 1 / 2, 1⟩) = (some 101, some (1 / 2))
    ∧ ¬((101 : ℝ) > 100 * 1.01) := by
  constructor
  · unfold calibrate_asset_parameters
    norm_num
  · norm_num

/-- C2 (amended): the solver is consulted exactly when `E > 0`, `sigma_E > 0`,
`D ≥ 0` and `T > 0`; otherwise the result is `(none, none)` regardless of the
solver. -/
theorem calibrate_attempted_iff_valid (E sigma_E D T r : ℝ) :
    (¬(0 < E ∧ 0 < sigma_E ∧ 0 ≤ D ∧ 0 < T) →
      ∀ fsolve, calibrate_asset_parameters E sigma_E D T r fsolve = (none, none))
    ∧ ((0 < E ∧ 0 < sigma_E ∧ 0 ≤ D ∧ 0 < T) →
      calibrate_asset_parameters E sigma_E D T r
          (fun _ _ _ => some ⟨2 * E + D, 1 / 2, 1⟩)
        = (some (2 * E + D), some (1 / 2))) := by
  constructor
  · intro h fsolve
    have hg : E ≤ 0 ∨ sigma_E ≤ 0 ∨ D < 0 ∨ T ≤ 0 := by
      by_contra hg
      push_neg at hg
      exact h ⟨hg.1, hg.2.1, hg.2.2.1, hg.2.2.2⟩
    unfold calibrate_asset_parameters
    rw [if_pos hg]
  · rintro ⟨hE, hsigE, hD, hT⟩
    unfold calibrate_asset_parameters
    rw [if_neg (by push_neg; exact ⟨hE, hsigE, hD, hT⟩)]
    dsimp only
    rw [if_neg (by simp), if_neg (by push_neg; constructor <;> [linarith; norm_num]),
      if_neg (not_lt.2 (by nlinarith)), if_neg (by norm_num)]

/-- Witness for C2: at the invalid input `E = 0` the solver outcome is
ignored and the result is absent. -/
theorem calibrate_attempted_iff_valid_witness :
    calibrate_asset_parameters 0 1 1 1 0 (fun _ _ _ => some ⟨5, 1 / 2, 1⟩)
      = (none, none) :=
  (calibrate_attempted_iff_valid 0 1 1 1 0).1 (by norm_num) _

/-- Counterexample to C2 as stated: the input guard only rejects `D < 0`, so
at `D = 0` (violating the claimed requirement `D > 0`) the solve is attempted
and can produce a non-absent result. -/
theorem calibrate_attempts_zero_debt :
    calibrate_asset_parameters 100 (3 / 10) 0 1 (5 / 100)
        (fun _ _ _ => some ⟨200, 1 / 2, 1⟩) = (some 200, some (1 / 2))
    ∧ (some (200 : ℝ), some ((1 : ℝ) / 2)) ≠ ((none : Option ℝ), (none : Option ℝ)) := by
  constructor
  · unfold calibrate_asset_parameters
    norm_num
  · simp

/-- C3: an exception raised inside the solver call (modelled by the solver
outcome `none`) is caught and converted to the `(none, none)` result, so
`calibrate_asset_parameters` always returns a pair to its caller. -/
theorem calibrate_never_raises (E sigma_E D T r : ℝ)
    (fsolve : (ℝ → ℝ → ℝ × ℝ) → ℝ → ℝ → Option SolveResult)
    (hexc : fsolve (calibration_equations E sigma_E D T r) (E + D)
        (min (max (if 0 < E + D then sigma_E * E / (E + D) else sigma_E) 0.01) 0.99)
      = none) :
    calibrate_asset_parameters E sigma_E D T r fsolve = (none, none) := by
  by_cases h : E ≤ 0 ∨ sigma_E ≤ 0 ∨ D < 0 ∨ T ≤ 0
  · unfold calibrate_asset_parameters
    rw [if_pos h]
  · unfold calibrate_asset_parameters
    rw [if_neg h]
    dsimp only
    rw [hexc]

/-- Witness for C3: a solver that always raises yields `(none, none)`. -/
theorem calibrate_never_raises_witness :
    calibrate_asset_parameters 100 (3 / 10) 50 1 (5 / 100) (fun _ _ _ => none)
      = (none, none) :=
  calibrate_never_raises 100 (3 / 10) 50 1 (5 / 100) (fun _ _ _ => none) rfl

/-- C10: the record returned by `calibrate_with_validation` has `success =
true` exactly when both `V` and `sigma_V` are present, and every failure path
leaves them absent with a non-empty diagnostic message. -/
theorem calibrate_with_validation_invariant (E sigma_E D T r : ℝ)
    (fsolve : (ℝ → ℝ → ℝ × ℝ) → ℝ → ℝ → Option SolveResult) :
    ((calibrate_with_validation E sigma_E D T r fsolve).success = true ↔
      ((calibrate_with_validation E sigma_E D T r fsolve).V.isSome = true ∧
        (calibrate_with_validation E sigma_E D T r fsolve).sigma_V.isSome = true))
    ∧ ((calibrate_with_validation E sigma_E D T r fsolve).success = false →
      (calibrate_with_validation E sigma_E D T r fsolve).V = none ∧
      (calibrate_with_validation E sigma_E D T r fsolve).sigma_V = none ∧
      (calibrate_with_validation E sigma_E D T r fsolve).message ≠ "") := by
  unfold calibrate_with_validation
  set c := calibrate_asset_parameters E sigma_E D T r fsolve with hc
  clear_value c
  rcases c with ⟨V1, sig1⟩
  rcases V1 with _ | V1 <;> rcases sig1 with _ | sig1
  · exact ⟨by simp, fun _ => ⟨rfl, rfl, by simp⟩⟩
  · exact ⟨by simp, fun _ => ⟨rfl, rfl, by simp⟩⟩
  · exact ⟨by simp, fun _ => ⟨rfl, rfl, by simp⟩⟩
  · dsimp only
    split_ifs with hpos herr herr2
    · exact ⟨by simp, fun _ => ⟨rfl, rfl, by simp⟩⟩
    · exact ⟨by simp, by simp⟩
    · exact ⟨by simp, fun _ => ⟨rfl, rfl, by simp⟩⟩
    · exact ⟨by simp, by simp⟩

/-- Witness for C10: an invalid input takes a failure path, leaving the
output fields absent with a diagnostic message. -/
theorem calibrate_with_validation_invariant_witness :
    (calibrate_with_validation 0 1 1 1 0 (fun _ _ _ => none)).V = none ∧
    (calibrate_with_validation 0 1 1 1 0 (fun _ _ _ => none)).sigma_V = none ∧
    (calibrate_with_validation 0 1 1 1 0 (fun _ _ _ => none)).message ≠ "" :=
  (calibrate_with_validation_invariant 0 1 1 1 0 (fun _ _ _ => none)).2
    (by simp [calibrate_with_validation, calibrate_asset_parameters])

end



